import Mathlib

/-!
# Verification of the sygma-relayer bridge wrapper, elector and app startup

Shallow embedding of the Go sources:
* `chains/evm/calls/contracts/bridge/bridge.go` — the `BridgeContract`
  wrapper: every contract invocation it makes is modelled as a request
  value (method name plus argument list) so that the on-chain surface and
  argument construction can be reasoned about.  The external collaborators
  (Keccak256, the ABI deposit-data encoders, the RPC transport) are kept
  abstract: Keccak256 is a function parameter, the deposit-data encoders
  become constructors of a symbolic `DepositData` type, and the transport
  is a function parameter from requests to decoded results.
* `comm/elector` static coordinator elector (`staticCoordinatorElector`).
* `app` `Run`: startup (config load, chain construction) and the final
  signal/error `select`.

Bytes are `List Nat` with each byte `< 256`; Go's `uint8`/`uint64` become
`Nat` with explicit bounds where overflow matters, Go's `int64`/`big.Int`
become `Int`.
-/

/-- Byte strings: each element is one byte. -/
abbrev Bytes := List Nat

/-- EVM addresses (20 bytes in the source; the length is immaterial here). -/
abbrev Address := Bytes

/-- `types.ResourceID`, a 32-byte identifier. -/
abbrev ResourceID := Bytes

/-- `binary.BigEndian.PutUint64`: the 8-byte big-endian encoding of a
64-bit value, byte `i` being `byte(v >> (56 - 8*i))`. -/
def putUint64BE (n : Nat) : Bytes :=
  [n / 2 ^ 56 % 256, n / 2 ^ 48 % 256, n / 2 ^ 40 % 256, n / 2 ^ 32 % 256,
   n / 2 ^ 24 % 256, n / 2 ^ 16 % 256, n / 2 ^ 8 % 256, n % 256]

/-- The numeric value of a big-endian byte string (specification-side
decoder used to state what "big-endian encoding" means). -/
def beVal (bs : Bytes) : Nat :=
  bs.foldl (fun acc b => acc * 256 + b) 0

/-- `proposal.Proposal` (chainbridge-core executor/proposal): source and
destination domain are `uint8`, the deposit nonce `uint64`. -/
structure Proposal where
  source : Nat
  destination : Nat
  depositNonce : Nat
  resourceId : ResourceID
  data : Bytes
  handlerAddress : Address
deriving DecidableEq, Repr

/-- `bytes.Join(chunks, nil)`: concatenation of the chunks. -/
def bytesJoin (chunks : List Bytes) : Bytes :=
  List.flatten chunks

/-- The byte string hashed by `BridgeContract.ProposalHash`:
`{Source} ‖ {Destination} ‖ nonceBytes ‖ Data ‖ ResourceId`. -/
def proposalBytes (p : Proposal) : Bytes :=
  bytesJoin [[p.source], [p.destination], putUint64BE p.depositNonce, p.data, p.resourceId]

/-- `BridgeContract.ProposalHash`: Keccak256 over `proposalBytes`, never
an error (the Go function returns `(hash, nil)` unconditionally).
`keccak` abstracts `crypto.Keccak256Hash`, an external collaborator. -/
def ProposalHash (keccak : Bytes → Bytes) (p : Proposal) : Except String Bytes :=
  Except.ok (keccak (proposalBytes p))

theorem beVal_putUint64BE (n : Nat) : beVal (putUint64BE n) = n % 2 ^ 64 := by
  simp only [beVal, putUint64BE, List.foldl]
  omega

theorem putUint64BE_length (n : Nat) : (putUint64BE n).length = 8 := by
  simp [putUint64BE]

theorem putUint64BE_bytes (n : Nat) : ∀ b ∈ putUint64BE n, b < 256 := by
  simp only [putUint64BE, List.mem_cons, List.not_mem_nil, or_false]
  rintro b (h | h | h | h | h | h | h | h) <;> omega

/-- C1: `ProposalHash(p)` is the Keccak256 hash of
source ‖ dest ‖ big-endian(nonce, 8 bytes) ‖ data ‖ resource_id, and it
never returns an error.  The middle component is characterised as the
8-byte big-endian encoding of the (64-bit) deposit nonce. -/
theorem proposalHash_spec (keccak : Bytes → Bytes) (p : Proposal)
    (h : p.depositNonce < 2 ^ 64) :
    ∃ nonceBytes : Bytes,
      nonceBytes.length = 8 ∧
      beVal nonceBytes = p.depositNonce ∧
      (∀ b ∈ nonceBytes, b < 256) ∧
      ProposalHash keccak p =
        Except.ok (keccak ([p.source] ++ [p.destination] ++ nonceBytes ++ p.data ++ p.resourceId)) := by
  refine ⟨putUint64BE p.depositNonce, putUint64BE_length _, ?_, putUint64BE_bytes _, ?_⟩
  · rw [beVal_putUint64BE, Nat.mod_eq_of_lt h]
  · simp [ProposalHash, proposalBytes, bytesJoin]

/-- C1 witness: `proposalHash_spec` evaluated at a concrete proposal. -/
theorem proposalHash_spec_witness :
    (42 < 2 ^ 64) ∧
    (∃ nonceBytes : Bytes,
      nonceBytes.length = 8 ∧
      beVal nonceBytes = 42 ∧
      (∀ b ∈ nonceBytes, b < 256) ∧
      ProposalHash List.reverse ⟨1, 2, 42, List.replicate 32 7, [9, 9], []⟩ =
        Except.ok (List.reverse ([1] ++ [2] ++ nonceBytes ++ [9, 9] ++ List.replicate 32 7))) :=
  ⟨by norm_num,
   proposalHash_spec List.reverse ⟨1, 2, 42, List.replicate 32 7, [9, 9], []⟩ (by norm_num)⟩

/-! ## The bridge contract wrapper (`bridge.go`)

Each wrapper method of `BridgeContract` funnels into either
`ExecuteTransaction(method, opts, args...)` (state-changing) or
`CallContract(method, args...)` (read-only query).  The embedding makes a
wrapper return the request it hands to that transport: method name,
argument list, and (for transactions) the `TransactOptions`. -/

/-- The deposit-payload encoders of `chains/evm/calls/contracts/deposit`
are external collaborators; their outputs are kept symbolic, one
constructor per encoder, recording exactly the arguments the wrapper
passed. -/
inductive DepositData where
  | erc20 (recipient : Bytes) (amount : Int)
  | erc20WithPriority (recipient : Bytes) (amount : Int) (priority : Nat)
  | erc721 (recipient : Bytes) (tokenId : Int) (metadata : Bytes)
  | erc721WithPriority (recipient : Bytes) (tokenId : Int) (metadata : Bytes) (priority : Nat)
  | generic (metadata : Bytes)
deriving DecidableEq, Repr

/-- One ABI argument as passed by the wrapper to the transport. -/
inductive CallArg where
  | u8 (n : Nat)
  | u64 (n : Nat)
  | bigInt (i : Int)
  | addr (a : Address)
  | bytes (b : Bytes)
  | rid (r : ResourceID)
  | bytes4 (b : Bytes)
  | depositData (d : DepositData)
deriving DecidableEq, Repr

/-- `transactor.TransactOptions` (chainbridge-core); `Priority` is the
field the deposit wrappers branch on. -/
structure TransactOptions where
  GasLimit : Nat := 0
  GasPrice : Int := 0
  Value : Int := 0
  Nonce : Int := 0
  ChainID : Int := 0
  Priority : Nat := 0
deriving DecidableEq, Repr

/-- A request handed to `ExecuteTransaction`. -/
structure TxRequest where
  method : String
  args : List CallArg
  opts : TransactOptions
deriving DecidableEq, Repr

/-- A request handed to `CallContract`. -/
structure CallRequest where
  method : String
  args : List CallArg
deriving DecidableEq, Repr

/-- `BridgeContract.AdminSetGenericResource`. -/
def AdminSetGenericResource (handler : Address) (rID : ResourceID) (addr : Address)
    (depositFunctionSig : Bytes) (depositerOffset : Int) (executeFunctionSig : Bytes)
    (opts : TransactOptions) : TxRequest :=
  ⟨"adminSetGenericResource",
   [.addr handler, .rid rID, .addr addr, .bytes4 depositFunctionSig,
    .bigInt depositerOffset, .bytes4 executeFunctionSig], opts⟩

/-- `BridgeContract.AdminSetResource`. -/
def AdminSetResource (handlerAddr : Address) (rID : ResourceID)
    (targetContractAddr : Address) (opts : TransactOptions) : TxRequest :=
  ⟨"adminSetResource", [.addr handlerAddr, .rid rID, .addr targetContractAddr], opts⟩

/-- `BridgeContract.SetDepositNonce`. -/
def SetDepositNonce (domainId : Nat) (depositNonce : Nat)
    (opts : TransactOptions) : TxRequest :=
  ⟨"adminSetDepositNonce", [.u8 domainId, .u64 depositNonce], opts⟩

/-- `BridgeContract.SetBurnableInput`. -/
def SetBurnableInput (handlerAddr : Address) (tokenContractAddr : Address)
    (opts : TransactOptions) : TxRequest :=
  ⟨"adminSetBurnable", [.addr handlerAddr, .addr tokenContractAddr], opts⟩

/-- `BridgeContract.deposit` (unexported helper shared by the three
deposit wrappers). -/
def deposit (resourceID : ResourceID) (destDomainID : Nat) (data : DepositData)
    (feeData : Bytes) (opts : TransactOptions) : TxRequest :=
  ⟨"deposit", [.u8 destDomainID, .rid resourceID, .depositData data, .bytes feeData], opts⟩

/-- `BridgeContract.Erc20Deposit`: plain encoder when `opts.Priority == 0`,
with-priority encoder otherwise. -/
def Erc20Deposit (recipient : Address) (amount : Int) (resourceID : ResourceID)
    (destDomainID : Nat) (feeData : Bytes) (opts : TransactOptions) : TxRequest :=
  let data : DepositData :=
    if opts.Priority = 0 then .erc20 recipient amount
    else .erc20WithPriority recipient amount opts.Priority
  deposit resourceID destDomainID data feeData opts

/-- `BridgeContract.Erc721Deposit` (`metadata` is already the byte string
`[]byte(metadata)` of the source). -/
def Erc721Deposit (tokenId : Int) (metadata : Bytes) (recipient : Address)
    (resourceID : ResourceID) (destDomainID : Nat) (feeData : Bytes)
    (opts : TransactOptions) : TxRequest :=
  let data : DepositData :=
    if opts.Priority = 0 then .erc721 recipient tokenId metadata
    else .erc721WithPriority recipient tokenId metadata opts.Priority
  deposit resourceID destDomainID data feeData opts

/-- `BridgeContract.GenericDeposit`. -/
def GenericDeposit (metadata : Bytes) (resourceID : ResourceID) (destDomainID : Nat)
    (feeData : Bytes) (opts : TransactOptions) : TxRequest :=
  deposit resourceID destDomainID (.generic metadata) feeData opts

/-- `BridgeContract.ExecuteProposal` (`revertOnFail` is accepted and, as in
the source, not part of the transaction arguments). -/
def ExecuteProposal (proposal : Proposal) (signature : Bytes) (revertOnFail : Bool)
    (opts : TransactOptions) : TxRequest :=
  ⟨"executeProposal",
   [.u8 proposal.source, .u64 proposal.depositNonce, .bytes proposal.data,
    .rid proposal.resourceId, .bytes signature], opts⟩

/-- `BridgeContract.Pause`. -/
def Pause (opts : TransactOptions) : TxRequest :=
  ⟨"adminPauseTransfers", [], opts⟩

/-- `BridgeContract.Unpause`. -/
def Unpause (opts : TransactOptions) : TxRequest :=
  ⟨"adminUnpauseTransfers", [], opts⟩

/-- `BridgeContract.EndKeygen`. -/
def EndKeygen (mpcAddress : Address) (opts : TransactOptions) : TxRequest :=
  ⟨"endKeygen", [.addr mpcAddress], opts⟩

/-- `common.LeftPadBytes(slice, l)`: zero-pad on the left to length `l`
(returns the slice unchanged when it is already at least that long). -/
def leftPadBytes (bs : Bytes) (l : Nat) : Bytes :=
  List.replicate (l - bs.length) 0 ++ bs

/-- `big.Int.Bytes()` for a non-negative value: minimal big-endian byte
string, empty for zero. -/
def natBytesBE : Nat → Bytes
  | 0 => []
  | n + 1 => natBytesBE ((n + 1) / 256) ++ [(n + 1) % 256]
decreasing_by exact Nat.div_lt_self (Nat.succ_pos n) (by norm_num)

/-- `BridgeContract.Withdraw`: builds the withdrawal data
`pad32(token) ‖ pad32(recipient) ‖ pad32(amount)`. -/
def Withdraw (handlerAddress tokenAddress recipientAddress : Address)
    (amountOrTokenId : Nat) (opts : TransactOptions) : TxRequest :=
  let data : Bytes :=
    leftPadBytes tokenAddress 32 ++ leftPadBytes recipientAddress 32 ++
      leftPadBytes (natBytesBE amountOrTokenId) 32
  ⟨"adminWithdraw", [.addr handlerAddress, .bytes data], opts⟩

/-- `BridgeContract.AdminChangeFeeHandler`. -/
def AdminChangeFeeHandler (feeHandlerAddr : Address) (opts : TransactOptions) : TxRequest :=
  ⟨"adminChangeFeeHandler", [.addr feeHandlerAddr], opts⟩

/-- Go's `int64(x)` on a `uint64` value: two's-complement
reinterpretation. -/
def int64OfUint64 (x : Nat) : Int :=
  if x < 2 ^ 63 then (x : Int) else (x : Int) - 2 ^ 64

/-- The query `BridgeContract.IsProposalExecuted` hands to `CallContract`:
`isProposalExecuted(p.Source, big.NewInt(int64(p.DepositNonce)))`. -/
def isProposalExecutedRequest (p : Proposal) : CallRequest :=
  ⟨"isProposalExecuted", [.u8 p.source, .bigInt (int64OfUint64 p.depositNonce)]⟩

/-- `BridgeContract.IsProposalExecuted`: run the query through the
transport (`call` abstracts `CallContract` plus the boolean ABI decode);
`(decoded, nil)` on success, `(false, err)` on failure. -/
def IsProposalExecuted (call : CallRequest → Except String Bool) (p : Proposal) :
    Bool × Option String :=
  match call (isProposalExecutedRequest p) with
  | .ok b => (b, none)
  | .error e => (false, some e)

/-- The query `BridgeContract.GetHandlerAddressForResourceID` hands to
`CallContract`. -/
def getHandlerAddressRequest (resourceID : ResourceID) : CallRequest :=
  ⟨"_resourceIDToHandlerAddress", [.rid resourceID]⟩

/-- `BridgeContract.GetHandlerAddressForResourceID`: `(decoded, nil)` on
success, `(zero address, err)` on failure. -/
def GetHandlerAddressForResourceID (call : CallRequest → Except String Address)
    (resourceID : ResourceID) : Address × Option String :=
  match call (getHandlerAddressRequest resourceID) with
  | .ok a => (a, none)
  | .error e => (List.replicate 20 0, some e)

/-! ## The static coordinator elector (`comm/elector`) -/

/-- `peer.ID` rendered as its byte string. -/
abbrev PeerID := Bytes

/-- Byte-lexicographic order on byte strings (`Bool`-valued, total). -/
def lexLe : Bytes → Bytes → Bool
  | [], _ => true
  | _ :: _, [] => false
  | a :: as, b :: bs => if a < b then true else if b < a then false else lexLe as bs

/-- The error the spec prescribes for an empty candidate set. -/
inductive ElectorErr where
  | NoCandidates
deriving DecidableEq, Repr

/-- Modelled from the spec: `common.SortPeersForSession` (tss/common of
this repository, not under src/) sorts the candidates by the Keccak256
hash of `peer_id ‖ session_id`; hashes are compared byte-lexicographically.
`keccak` abstracts the external Keccak256 primitive. -/
def SortPeersForSession (keccak : Bytes → Bytes) (sessionID : Bytes)
    (peers : List PeerID) : List PeerID :=
  List.insertionSort (fun a b => lexLe (keccak (a ++ sessionID)) (keccak (b ++ sessionID)) = true) peers

/-- `staticCoordinatorElector.Coordinator`: head of the sorted candidate
list; `(empty peer id, nil)` when the sorted list is empty.  The Go
function's `error` result is `nil` on every path. -/
def Coordinator (keccak : Bytes → Bytes) (sessionID : Bytes)
    (peers : List PeerID) : PeerID × Option ElectorErr :=
  let sortedPeers := SortPeersForSession keccak sessionID peers
  match sortedPeers with
  | [] => ([], none)
  | p :: _ => (p, none)

theorem lexLe_refl (a : Bytes) : lexLe a a = true := by
  induction a with
  | nil => rfl
  | cons x xs ih => simp [lexLe, ih]

theorem lexLe_total (a b : Bytes) : lexLe a b = true ∨ lexLe b a = true := by
  induction a generalizing b with
  | nil => exact Or.inl rfl
  | cons x xs ih =>
    cases b with
    | nil => exact Or.inr rfl
    | cons y ys =>
      rcases Nat.lt_trichotomy x y with h | h | h
      · left; simp [lexLe, h]
      · subst h
        rcases ih ys with h' | h'
        · left; simp [lexLe, h']
        · right; simp [lexLe, h']
      · right; simp [lexLe, h]

theorem lexLe_trans {a b c : Bytes} (hab : lexLe a b = true) (hbc : lexLe b c = true) :
    lexLe a c = true := by
  induction a generalizing b c with
  | nil => rfl
  | cons x xs ih =>
    cases b with
    | nil => simp [lexLe] at hab
    | cons y ys =>
      cases c with
      | nil => simp [lexLe] at hbc
      | cons z zs =>
        simp only [lexLe] at hab hbc ⊢
        rcases Nat.lt_trichotomy x y with h1 | h1 | h1
        · rcases Nat.lt_trichotomy y z with h2 | h2 | h2
          · simp [Nat.lt_trans h1 h2]
          · subst h2; simp [h1]
          · simp [Nat.lt_asymm h2, h2] at hbc
        · subst h1
          simp only [Nat.lt_irrefl, if_false] at hab
          rcases Nat.lt_trichotomy x z with h2 | h2 | h2
          · simp [h2]
          · subst h2
            simp only [Nat.lt_irrefl, if_false] at hbc ⊢
            exact ih hab hbc
          · simp [Nat.lt_asymm h2, h2] at hbc
        · simp [Nat.lt_asymm h1, h1] at hab

/-- C3 counterexample: on the empty candidate set the source's
`Coordinator` succeeds with the empty peer id and a nil error — it does
not fail with `NoCandidates`. -/
theorem coordinator_empty_counterexample :
    Coordinator (fun _ => []) [] [] = (([] : PeerID), (none : Option ElectorErr)) ∧
    (Coordinator (fun _ => []) [] []).2 ≠ some ElectorErr.NoCandidates :=
  ⟨rfl, by decide⟩

/-- C3 amended: given an empty candidate set, `Coordinator` returns the
empty peer id together with a nil error (a success), for every hash
function and session id. -/
theorem coordinator_empty (keccak : Bytes → Bytes) (sessionID : Bytes) :
    Coordinator keccak sessionID [] = ([], none) := rfl

/-- C4: the static elector is a pure function of `(session_id, candidates)`
(hence identical across invocations and nodes, with no messages), and on a
non-empty candidate set it returns, with nil error, a candidate whose
Keccak256 hash of `peer_id ‖ session_id` is smallest (byte-lexicographic)
among all candidates. -/
theorem coordinator_min (keccak : Bytes → Bytes) (sessionID : Bytes)
    (peers : List PeerID) (h : peers ≠ []) :
    ∃ p : PeerID,
      Coordinator keccak sessionID peers = (p, none) ∧
      p ∈ peers ∧
      ∀ q ∈ peers, lexLe (keccak (p ++ sessionID)) (keccak (q ++ sessionID)) = true := by
  haveI : IsTotal PeerID
      (fun a b => lexLe (keccak (a ++ sessionID)) (keccak (b ++ sessionID)) = true) :=
    ⟨fun a b => lexLe_total _ _⟩
  haveI : IsTrans PeerID
      (fun a b => lexLe (keccak (a ++ sessionID)) (keccak (b ++ sessionID)) = true) :=
    ⟨fun _ _ _ hab hbc => lexLe_trans hab hbc⟩
  have hperm : (SortPeersForSession keccak sessionID peers).Perm peers :=
    List.perm_insertionSort _ peers
  have hsorted :
      List.Sorted (fun a b => lexLe (keccak (a ++ sessionID)) (keccak (b ++ sessionID)) = true)
        (SortPeersForSession keccak sessionID peers) :=
    List.sorted_insertionSort _ peers
  rcases hcase : SortPeersForSession keccak sessionID peers with _ | ⟨m, rest⟩
  · exfalso
    have hlen := hperm.length_eq
    rw [hcase] at hlen
    exact h (List.eq_nil_of_length_eq_zero hlen.symm)
  · refine ⟨m, ?_, ?_, ?_⟩
    · simp only [Coordinator, hcase]
    · have hm : m ∈ SortPeersForSession keccak sessionID peers := by
        rw [hcase]; exact List.mem_cons_self _ _
      exact hperm.subset hm
    · intro q hq
      have hq' : q ∈ SortPeersForSession keccak sessionID peers := hperm.symm.subset hq
      rw [hcase] at hq'
      rcases List.mem_cons.mp hq' with rfl | hq''
      · exact lexLe_refl _
      · rw [hcase] at hsorted
        exact List.rel_of_sorted_cons hsorted q hq''

/-- C4 witness: `coordinator_min` evaluated at a concrete session id and
candidate pair. -/
theorem coordinator_min_witness :
    ([[1], [2]] : List PeerID) ≠ [] ∧
    (∃ p : PeerID,
      Coordinator id [9] [[1], [2]] = (p, none) ∧
      p ∈ ([[1], [2]] : List PeerID) ∧
      ∀ q ∈ ([[1], [2]] : List PeerID), lexLe (id (p ++ [9])) (id (q ++ [9])) = true) :=
  ⟨by decide, coordinator_min id [9] [[1], [2]] (by decide)⟩

/-! ## `app.Run` (part_000): startup and the final select -/

/-- One entry of `configuration.ChainConfigs`; `typ` is the value of the
`"type"` key the startup loop switches on (remaining keys are consumed by
the external `chain.NewEVMConfig` and are abstracted). -/
structure ChainCfg where
  typ : String
deriving DecidableEq, Repr

/-- The chain-construction loop of `Run`: for each config entry, the
evm branch builds an EVM chain through the external constructor chain
(`mkEvm` abstracts `NewEVMConfig`/`NewEVMClient`/listener/executor
assembly, any of whose failures `Run` turns into a panic); any other type
hits the `default` branch and panics with
`type '<typ>' not recognized`.  A panic is modelled as `Except.error`. -/
def buildChains {Chain : Type} (mkEvm : ChainCfg → Except String Chain) :
    List ChainCfg → Except String (List Chain)
  | [] => .ok []
  | cc :: rest =>
    if cc.typ = "evm" then
      match mkEvm cc with
      | .error e => .error e
      | .ok ch =>
        match buildChains mkEvm rest with
        | .error e => .error e
        | .ok chs => .ok (ch :: chs)
    else
      .error ("type '" ++ cc.typ ++ "' not recognized")

/-- The startup phase of `Run`: load the configuration (`getConfig`
abstracts `config.GetConfig`; a load failure is panicked), then build all
chains.  Only a returned `.ok` list reaches `relayer.NewRelayer` /
`r.Start`; `.error` means the process panicked before any relayer was
started. -/
def RunStartup {Chain : Type} (getConfig : Except String (List ChainCfg))
    (mkEvm : ChainCfg → Except String Chain) : Except String (List Chain) :=
  match getConfig with
  | .error e => .error e
  | .ok ccs => buildChains mkEvm ccs

/-- The POSIX signals relevant to `Run`'s `signal.Notify` call (a few
unsubscribed ones included so that "exactly these four" is meaningful). -/
inductive OsSignal where
  | SIGTERM
  | SIGINT
  | SIGHUP
  | SIGQUIT
  | SIGUSR1
  | SIGUSR2
deriving DecidableEq, Repr

/-- The signal set passed to `signal.Notify(sysErr, ...)` in `Run`. -/
def notifiedSignals : List OsSignal :=
  [.SIGTERM, .SIGINT, .SIGHUP, .SIGQUIT]

/-- What `Run`'s final `select` wakes up on: a value on the process error
channel `errChn`, or a subscribed signal on `sysErr`. -/
inductive RunEvent where
  | errChn (e : String)
  | sysErr (s : OsSignal)
deriving DecidableEq, Repr

/-- `Run`'s final `select`: an error from `errChn` is returned as `Run`'s
(non-nil) result; a signal returns `nil`.  `none` models the nil error
(clean exit, code 0), `some e` the fatal error (non-zero exit). -/
def runSelect : RunEvent → Option String
  | .errChn e => some e
  | .sysErr _ => none

/-- C7: `Run` subscribes to exactly SIGTERM, SIGINT, SIGHUP and SIGQUIT;
any subscribed signal makes `Run` return nil (clean shutdown, exit 0),
while a value on the error channel is returned as a non-nil error. -/
theorem run_signals_spec :
    notifiedSignals = [OsSignal.SIGTERM, OsSignal.SIGINT, OsSignal.SIGHUP, OsSignal.SIGQUIT] ∧
    (∀ s ∈ notifiedSignals, runSelect (.sysErr s) = none) ∧
    (∀ e, runSelect (.errChn e) = some e) :=
  ⟨rfl, fun _ _ => rfl, fun _ => rfl⟩

/-- C7 witness: `run_signals_spec` evaluated at SIGTERM and a concrete
error. -/
theorem run_signals_spec_witness :
    runSelect (.sysErr .SIGTERM) = none ∧ runSelect (.errChn "fatal") = some "fatal" :=
  ⟨run_signals_spec.2.1 OsSignal.SIGTERM (by decide), run_signals_spec.2.2 "fatal"⟩

theorem buildChains_error_of_bad {Chain : Type} (mkEvm : ChainCfg → Except String Chain) :
    ∀ (ccs : List ChainCfg) (cc : ChainCfg), cc ∈ ccs → cc.typ ≠ "evm" →
      ∃ msg, buildChains mkEvm ccs = .error msg := by
  intro ccs
  induction ccs with
  | nil => intro cc hmem; exact absurd hmem (List.not_mem_nil cc)
  | cons hd rest ih =>
    intro cc hmem hbad
    by_cases hhd : hd.typ = "evm"
    · have hcc : cc ∈ rest := by
        rcases List.mem_cons.mp hmem with rfl | h
        · exact absurd hhd hbad
        · exact h
      obtain ⟨msg, hmsg⟩ := ih cc hcc hbad
      simp only [buildChains, hhd, if_true]
      cases hmk : mkEvm hd with
      | error e => exact ⟨e, rfl⟩
      | ok ch => rw [hmsg]; exact ⟨msg, rfl⟩
    · exact ⟨"type '" ++ hd.typ ++ "' not recognized", by simp [buildChains, hhd]⟩

theorem buildChains_names_type {Chain : Type} (mkEvm : ChainCfg → Except String Chain)
    (hok : ∀ c, ∃ ch, mkEvm c = .ok ch) :
    ∀ (ccs : List ChainCfg) (cc : ChainCfg), cc ∈ ccs → cc.typ ≠ "evm" →
      ∃ t, t ≠ "evm" ∧ (∃ cc' ∈ ccs, cc'.typ = t) ∧
        buildChains mkEvm ccs = .error ("type '" ++ t ++ "' not recognized") := by
  intro ccs
  induction ccs with
  | nil => intro cc hmem; exact absurd hmem (List.not_mem_nil cc)
  | cons hd rest ih =>
    intro cc hmem hbad
    by_cases hhd : hd.typ = "evm"
    · have hcc : cc ∈ rest := by
        rcases List.mem_cons.mp hmem with rfl | h
        · exact absurd hhd hbad
        · exact h
      obtain ⟨t, ht, ⟨cc', hcc', ht'⟩, hmsg⟩ := ih cc hcc hbad
      obtain ⟨ch, hch⟩ := hok hd
      refine ⟨t, ht, ⟨cc', List.mem_cons_of_mem hd hcc', ht'⟩, ?_⟩
      simp only [buildChains, hhd, if_true, hch, hmsg]
    · exact ⟨hd.typ, hhd, ⟨hd, List.mem_cons_self hd rest, rfl⟩, by simp [buildChains, hhd]⟩

/-- C8: startup is fatal when the configuration fails to load, and fatal
before any relayer is started whenever some chain config entry has a type
other than evm; when the external EVM constructors themselves succeed, the
panic message names the unrecognized type
(`type '<t>' not recognized`). -/
theorem run_startup_fatal {Chain : Type} (mkEvm : ChainCfg → Except String Chain) :
    (∀ e, RunStartup (.error e) mkEvm = .error e) ∧
    (∀ ccs cc, cc ∈ ccs → cc.typ ≠ "evm" →
      ∃ msg, RunStartup (.ok ccs) mkEvm = .error msg) ∧
    (∀ ccs cc, (∀ c, ∃ ch, mkEvm c = .ok ch) → cc ∈ ccs → cc.typ ≠ "evm" →
      ∃ t, t ≠ "evm" ∧ (∃ cc' ∈ ccs, cc'.typ = t) ∧
        RunStartup (.ok ccs) mkEvm = .error ("type '" ++ t ++ "' not recognized")) := by
  refine ⟨fun e => rfl, fun ccs cc hmem hbad => ?_, fun ccs cc hok hmem hbad => ?_⟩
  · exact buildChains_error_of_bad mkEvm ccs cc hmem hbad
  · exact buildChains_names_type mkEvm hok ccs cc hmem hbad

/-- C8 witness: `run_startup_fatal` with a failed config load and with a
config list containing an unrecognized `substrate` entry. -/
theorem run_startup_fatal_witness :
    @RunStartup Unit (.error "no config") (fun _ => .ok ()) = .error "no config" ∧
    (∃ t, t ≠ "evm" ∧
      (∃ cc' ∈ [ChainCfg.mk "evm", ChainCfg.mk "substrate"], cc'.typ = t) ∧
      @RunStartup Unit (.ok [ChainCfg.mk "evm", ChainCfg.mk "substrate"])
          (fun _ => .ok ()) =
        .error ("type '" ++ t ++ "' not recognized")) :=
  ⟨(run_startup_fatal (fun _ => .ok ())).1 "no config",
   (run_startup_fatal (fun _ => .ok ())).2.2 [ChainCfg.mk "evm", ChainCfg.mk "substrate"]
     (ChainCfg.mk "substrate") (fun _ => ⟨(), rfl⟩) (by decide) (by decide)⟩

/-- The twelve entry points the spec lists as the relayer's on-chain
surface. -/
def specListedEntryPoints : List String :=
  ["deposit", "executeProposal", "isProposalExecuted", "endKeygen", "adminSetResource",
   "adminSetGenericResource", "adminSetBurnable", "adminSetDepositNonce",
   "adminChangeFeeHandler", "adminWithdraw", "adminPauseTransfers", "adminUnpauseTransfers"]

/-- C2 counterexample: `GetHandlerAddressForResourceID` passes the method
`_resourceIDToHandlerAddress` to `CallContract`, and that name is outside
the twelve listed entry points — so not every invoked method is in the
listed set. -/
theorem bridge_entry_points_counterexample :
    (getHandlerAddressRequest (List.replicate 32 0)).method = "_resourceIDToHandlerAddress" ∧
    "_resourceIDToHandlerAddress" ∉ specListedEntryPoints :=
  ⟨rfl, by decide⟩

/-- C2 amended surface: the twelve listed entry points together with the
read-only handler lookup `_resourceIDToHandlerAddress`. -/
def bridgeInvokedEntryPoints : List String :=
  specListedEntryPoints ++ ["_resourceIDToHandlerAddress"]

/-- C2 amended: every contract method name passed by a wrapper of
`BridgeContract` to `ExecuteTransaction` or `CallContract` (the sixteen
definitions below enumerate every call site in `bridge.go`) is one of the
twelve listed entry points plus `_resourceIDToHandlerAddress`, and each
name of that amended set is invoked by some wrapper. -/
theorem bridge_entry_points_amended
    (handler rID addr sig1 sig2 : Bytes) (offset : Int)
    (domainId nonce destDomainID amountOrTokenId : Nat) (amount tokenId : Int)
    (recipient tokenAddr recipientAddr mpcAddr feeHandlerAddr : Address)
    (metadata feeData signature : Bytes) (d : DepositData)
    (p : Proposal) (revertOnFail : Bool) (opts : TransactOptions) :
    (AdminSetGenericResource handler rID addr sig1 offset sig2 opts).method ∈ bridgeInvokedEntryPoints ∧
    (AdminSetResource handler rID addr opts).method ∈ bridgeInvokedEntryPoints ∧
    (SetDepositNonce domainId nonce opts).method ∈ bridgeInvokedEntryPoints ∧
    (SetBurnableInput handler tokenAddr opts).method ∈ bridgeInvokedEntryPoints ∧
    (deposit rID destDomainID d feeData opts).method ∈ bridgeInvokedEntryPoints ∧
    (Erc20Deposit recipient amount rID destDomainID feeData opts).method ∈ bridgeInvokedEntryPoints ∧
    (Erc721Deposit tokenId metadata recipient rID destDomainID feeData opts).method ∈ bridgeInvokedEntryPoints ∧
    (GenericDeposit metadata rID destDomainID feeData opts).method ∈ bridgeInvokedEntryPoints ∧
    (ExecuteProposal p signature revertOnFail opts).method ∈ bridgeInvokedEntryPoints ∧
    (Pause opts).method ∈ bridgeInvokedEntryPoints ∧
    (Unpause opts).method ∈ bridgeInvokedEntryPoints ∧
    (EndKeygen mpcAddr opts).method ∈ bridgeInvokedEntryPoints ∧
    (Withdraw handler tokenAddr recipientAddr amountOrTokenId opts).method ∈ bridgeInvokedEntryPoints ∧
    (AdminChangeFeeHandler feeHandlerAddr opts).method ∈ bridgeInvokedEntryPoints ∧
    (isProposalExecutedRequest p).method ∈ bridgeInvokedEntryPoints ∧
    (getHandlerAddressRequest rID).method ∈ bridgeInvokedEntryPoints ∧
    (∀ m ∈ bridgeInvokedEntryPoints,
      m ∈ [(AdminSetGenericResource handler rID addr sig1 offset sig2 opts).method,
           (AdminSetResource handler rID addr opts).method,
           (SetDepositNonce domainId nonce opts).method,
           (SetBurnableInput handler tokenAddr opts).method,
           (Erc20Deposit recipient amount rID destDomainID feeData opts).method,
           (Erc721Deposit tokenId metadata recipient rID destDomainID feeData opts).method,
           (GenericDeposit metadata rID destDomainID feeData opts).method,
           (ExecuteProposal p signature revertOnFail opts).method,
           (Pause opts).method,
           (Unpause opts).method,
           (EndKeygen mpcAddr opts).method,
           (Withdraw handler tokenAddr recipientAddr amountOrTokenId opts).method,
           (AdminChangeFeeHandler feeHandlerAddr opts).method,
           (isProposalExecutedRequest p).method,
           (getHandlerAddressRequest rID).method]) := by
  simp only [AdminSetGenericResource, AdminSetResource, SetDepositNonce, SetBurnableInput,
    Erc20Deposit, Erc721Deposit, GenericDeposit, deposit, ExecuteProposal, Pause, Unpause,
    EndKeygen, Withdraw, AdminChangeFeeHandler, isProposalExecutedRequest,
    getHandlerAddressRequest, bridgeInvokedEntryPoints, specListedEntryPoints]
  decide

/-- C2 witness: `bridge_entry_points_amended` evaluated at concrete
arguments. -/
theorem bridge_entry_points_amended_witness :
    (AdminSetGenericResource [] [] [] [] 0 [] ⟨0, 0, 0, 0, 0, 0⟩).method ∈ bridgeInvokedEntryPoints :=
  (bridge_entry_points_amended [] [] [] [] [] 0 0 0 0 0 0 0 [] [] [] [] [] [] [] []
    (.generic []) ⟨0, 0, 0, [], [], []⟩ false ⟨0, 0, 0, 0, 0, 0⟩).1

/-- C5: the ERC-20 and ERC-721 deposit wrappers build their data with the
plain encoder exactly when `opts.Priority == 0`, and with the
with-priority encoder — the priority passed through unchanged — for every
non-zero priority. -/
theorem erc_deposit_priority (recipient : Address) (amount tokenId : Int)
    (metadata : Bytes) (resourceID : ResourceID) (destDomainID : Nat) (feeData : Bytes)
    (opts : TransactOptions) :
    (opts.Priority = 0 →
      Erc20Deposit recipient amount resourceID destDomainID feeData opts =
        deposit resourceID destDomainID (.erc20 recipient amount) feeData opts) ∧
    (opts.Priority ≠ 0 →
      Erc20Deposit recipient amount resourceID destDomainID feeData opts =
        deposit resourceID destDomainID
          (.erc20WithPriority recipient amount opts.Priority) feeData opts) ∧
    (opts.Priority = 0 →
      Erc721Deposit tokenId metadata recipient resourceID destDomainID feeData opts =
        deposit resourceID destDomainID (.erc721 recipient tokenId metadata) feeData opts) ∧
    (opts.Priority ≠ 0 →
      Erc721Deposit tokenId metadata recipient resourceID destDomainID feeData opts =
        deposit resourceID destDomainID
          (.erc721WithPriority recipient tokenId metadata opts.Priority) feeData opts) := by
  refine ⟨fun h => ?_, fun h => ?_, fun h => ?_, fun h => ?_⟩ <;>
    simp [Erc20Deposit, Erc721Deposit, h]

/-- C5 witness: `erc_deposit_priority` at priority 0 and priority 7. -/
theorem erc_deposit_priority_witness :
    Erc20Deposit [1] 5 [2] 3 [] ⟨0, 0, 0, 0, 0, 0⟩ =
      deposit [2] 3 (.erc20 [1] 5) [] ⟨0, 0, 0, 0, 0, 0⟩ ∧
    Erc20Deposit [1] 5 [2] 3 [] ⟨0, 0, 0, 0, 0, 7⟩ =
      deposit [2] 3 (.erc20WithPriority [1] 5 7) [] ⟨0, 0, 0, 0, 0, 7⟩ ∧
    Erc721Deposit 4 [8] [1] [2] 3 [] ⟨0, 0, 0, 0, 0, 7⟩ =
      deposit [2] 3 (.erc721WithPriority [1] 4 [8] 7) [] ⟨0, 0, 0, 0, 0, 7⟩ :=
  ⟨(erc_deposit_priority [1] 5 4 [8] [2] 3 [] ⟨0, 0, 0, 0, 0, 0⟩).1 rfl,
   (erc_deposit_priority [1] 5 4 [8] [2] 3 [] ⟨0, 0, 0, 0, 0, 7⟩).2.1 (by decide),
   (erc_deposit_priority [1] 5 4 [8] [2] 3 [] ⟨0, 0, 0, 0, 0, 7⟩).2.2.2 (by decide)⟩

/-- C9: `GenericDeposit` ignores the transaction-options priority — for
every metadata input and every pair of options the submitted deposit data
is the same, always `ConstructGenericDepositData(metadata)`. -/
theorem generic_deposit_ignores_priority (metadata : Bytes) (resourceID : ResourceID)
    (destDomainID : Nat) (feeData : Bytes) (opts opts' : TransactOptions) :
    (GenericDeposit metadata resourceID destDomainID feeData opts).args =
      (GenericDeposit metadata resourceID destDomainID feeData opts').args ∧
    (GenericDeposit metadata resourceID destDomainID feeData opts).args =
      [.u8 destDomainID, .rid resourceID, .depositData (.generic metadata), .bytes feeData] :=
  ⟨rfl, rfl⟩

/-- C6 counterexample: the claim reads the nonce argument as the deposit
nonce itself; at nonce `2^63` the wrapper instead passes the wrapped
signed value, so a transport that distinguishes the two argument lists
refutes the claim. -/
theorem isProposalExecuted_counterexample :
    ¬ (∀ (call : CallRequest → Except String Bool) (p : Proposal),
        IsProposalExecuted call p =
          match call ⟨"isProposalExecuted", [.u8 p.source, .bigInt (p.depositNonce : Int)]⟩ with
          | .ok b => (b, none)
          | .error e => (false, some e)) := by
  intro hclaim
  have h := hclaim
    (fun r =>
      .ok (decide (r.args = [CallArg.u8 0, CallArg.bigInt ((9223372036854775808 : Nat) : Int)])))
    ⟨0, 0, 9223372036854775808, [], [], []⟩
  exact absurd h (by decide)

/-- C6 amended: `IsProposalExecuted` queries `isProposalExecuted` with
exactly the pair (source domain, signed-64-bit reinterpretation of the
deposit nonce) — equal to the nonce itself whenever it is below `2^63` —
and returns the decoded boolean; if the contract call fails it returns
`false` together with that error. -/
theorem isProposalExecuted_spec (call : CallRequest → Except String Bool) (p : Proposal) :
    (isProposalExecutedRequest p).method = "isProposalExecuted" ∧
    (isProposalExecutedRequest p).args =
      [.u8 p.source, .bigInt (int64OfUint64 p.depositNonce)] ∧
    (p.depositNonce < 2 ^ 63 →
      (isProposalExecutedRequest p).args = [.u8 p.source, .bigInt (p.depositNonce : Int)]) ∧
    (∀ b, call (isProposalExecutedRequest p) = .ok b →
      IsProposalExecuted call p = (b, none)) ∧
    (∀ e, call (isProposalExecutedRequest p) = .error e →
      IsProposalExecuted call p = (false, some e)) := by
  refine ⟨rfl, rfl, fun h => ?_, fun b hb => ?_, fun e he => ?_⟩
  · simp only [isProposalExecutedRequest, int64OfUint64, if_pos h]
  · simp [IsProposalExecuted, hb]
  · simp [IsProposalExecuted, he]

/-- C6 witness: `isProposalExecuted_spec` with a succeeding and a failing
transport at nonce 5. -/
theorem isProposalExecuted_spec_witness :
    IsProposalExecuted (fun _ => .ok true) ⟨1, 2, 5, [], [], []⟩ = (true, none) ∧
    IsProposalExecuted (fun _ => .error "rpc down") ⟨1, 2, 5, [], [], []⟩ =
      (false, some "rpc down") ∧
    (isProposalExecutedRequest ⟨1, 2, 5, [], [], []⟩).args =
      [.u8 1, .bigInt ((5 : Nat) : Int)] :=
  ⟨(isProposalExecuted_spec (fun _ => .ok true) ⟨1, 2, 5, [], [], []⟩).2.2.2.1 true rfl,
   (isProposalExecuted_spec (fun _ => .error "rpc down") ⟨1, 2, 5, [], [], []⟩).2.2.2.2
     "rpc down" rfl,
   (isProposalExecuted_spec (fun _ => .ok true) ⟨1, 2, 5, [], [], []⟩).2.2.1 (by norm_num)⟩

/-- C10: for every proposal whose deposit nonce is at least `2^63` (and
representable in 64 bits), the nonce argument passed to the
`isProposalExecuted` contract call is the negative value `nonce - 2^64`,
not the nonce itself. -/
theorem isProposalExecuted_nonce_wraps (p : Proposal)
    (h1 : 2 ^ 63 ≤ p.depositNonce) (h2 : p.depositNonce < 2 ^ 64) :
    (isProposalExecutedRequest p).args =
      [.u8 p.source, .bigInt ((p.depositNonce : Int) - 2 ^ 64)] ∧
    (p.depositNonce : Int) - 2 ^ 64 < 0 ∧
    (p.depositNonce : Int) - 2 ^ 64 ≠ (p.depositNonce : Int) := by
  have hlt : ¬ p.depositNonce < 2 ^ 63 := by omega
  refine ⟨?_, by omega, by omega⟩
  simp only [isProposalExecutedRequest, int64OfUint64, if_neg hlt]

/-- C10 witness: `isProposalExecuted_nonce_wraps` at nonce `2^63`. -/
theorem isProposalExecuted_nonce_wraps_witness :
    (2 ^ 63 ≤ 9223372036854775808) ∧ (9223372036854775808 < 2 ^ 64) ∧
    ((isProposalExecutedRequest ⟨0, 0, 9223372036854775808, [], [], []⟩).args =
      [.u8 0, .bigInt (((9223372036854775808 : Nat) : Int) - 2 ^ 64)] ∧
    ((9223372036854775808 : Nat) : Int) - 2 ^ 64 < 0 ∧
    ((9223372036854775808 : Nat) : Int) - 2 ^ 64 ≠ ((9223372036854775808 : Nat) : Int)) :=
  ⟨by norm_num, by norm_num,
   isProposalExecuted_nonce_wraps ⟨0, 0, 9223372036854775808, [], [], []⟩
     (by norm_num) (by norm_num)⟩
